import Mathlib

/-!
Shallow embedding of `src/lib/uiauto-client.js` (the `UIAutoClient` command
proxy).  The client is a small event-driven protocol engine: callers submit
commands (`sendCommand`), a Unix-socket peer reconnects once per exchange, and
the connection `end` handler resolves the in-flight command (or requests more
data via the reserved `#more` continuation command) and dispatches the next
queued command.

The embedding is an explicit state machine:
* `ClientState` mirrors the instance fields set in the constructor
  (`curCommand`, `onReceiveCommand`, `commandQueue`, `sock`, `socketServer`,
  `hasConnected`, `currentSocket`);
* `Event` enumerates the external stimuli (a connection being accepted, a
  connection `end` event together with the value the external
  `UIAutoResponse.getResult()` accumulator would return, a connection `close`
  event, a `sendCommand` call, a `shutdown` call, a `start` call);
* `Effect` records the observable actions (settling a caller's promise,
  writing a frame on a connection, half-closing it, resetting the
  accumulator's buffer, resolving the promise returned by `start`, tearing
  sockets down);
* `step` is the translation of the corresponding handler bodies; `JS`
  exceptions that escape a handler are the `Except.error` results
  (`dispatchOnEmpty`: `commandQueue.shift()` returned `undefined` and
  `this.curCommand.cmd` would throw; `closeError`: promisified
  `socketServer.close` rejected).

A caller's completion callback `cb` (the closure created in `sendCommand`
around `resolve`/`reject` of the returned promise) is identified by the
promise id `cb : Nat`; invoking it is the effect computed by `runCb`.
-/

namespace UIAutoClient

/-- `const MORE_COMMAND = '#more'` — the reserved continuation identifier. -/
def MORE_COMMAND : String := "#more"

/-- An entry of `this.commandQueue`: `{cmd, cb}`, with the callback identified
by the id of the promise it settles. -/
structure Command where
  cmd : String
  cb : Nat
deriving DecidableEq, Repr

/-- What `UIAutoResponse.getResult()` returns on a connection `end` event:
a JSONWP-style object `{status, value}` once complete, or a marker that more
data is needed.  The payload `value` is modelled as the string the peer sent. -/
structure Result where
  status : Int
  value : String
  needsMoreData : Bool
deriving DecidableEq, Repr

/-- The instance fields initialised in `UIAutoClient`'s constructor.
`onReceiveCommand` is either `none` (JS `null`) or the deferred dispatch
closure; that closure only captures the current connection, so it is modelled
by the captured connection id.  `socketServer` records whether a listening
server object is installed. -/
structure ClientState where
  curCommand : Option Command
  onReceiveCommand : Option Nat
  commandQueue : List Command
  sock : String
  socketServer : Bool
  hasConnected : Bool
  currentSocket : Option Nat
deriving DecidableEq, Repr

/-- The state built by `new UIAutoClient()` (default socket path). -/
def clientInit : ClientState :=
  { curCommand := none
    onReceiveCommand := none
    commandQueue := []
    sock := "/tmp/instruments_sock"
    socketServer := false
    hasConnected := false
    currentSocket := none }

/-- Observable actions performed by the handlers. -/
inductive Effect where
  /-- `resolve(result.value)` on the promise returned by `sendCommand`. -/
  | resolve (pid : Nat) (value : String)
  /-- `reject(new Error(result.value))`: the error's message is the value. -/
  | reject (pid : Nat) (message : String)
  /-- `conn.write(frame)`. -/
  | write (conn : Nat) (frame : String)
  /-- `conn.end()` — half-close of the proxy's write side. -/
  | halfClose (conn : Nat)
  /-- `response.resetBuffer()` on the external accumulator. -/
  | resetBuffer
  /-- `resolve(true)` on the promise returned by `start`. -/
  | resolveStart (b : Bool)
  /-- `this.currentSocket.end()` during shutdown. -/
  | sockEnd (conn : Nat)
  /-- `this.currentSocket.destroy()` during shutdown. -/
  | sockDestroy (conn : Nat)
  /-- awaited `this.socketServer.close()` during shutdown. -/
  | serverClose
deriving DecidableEq, Repr

/-- Exceptions that can escape a handler. -/
inductive StepErr where
  /-- `commandQueue.shift()` returned `undefined`, so `this.curCommand.cmd`
  inside `onReceiveCommand` would throw. -/
  | dispatchOnEmpty
  /-- the promisified `socketServer.close()` rejected. -/
  | closeError
deriving DecidableEq, Repr

/-- Hexadecimal digit, lower case, as produced by `JSON.stringify`'s
`\uXXXX` escapes. -/
def hexDigit (n : Nat) : Char :=
  if n < 10 then Char.ofNat (48 + n) else Char.ofNat (87 + n)

/-- Four-digit hexadecimal rendering of a code point below `0x10000`. -/
def hex4 (n : Nat) : String :=
  String.mk [hexDigit (n / 4096 % 16), hexDigit (n / 256 % 16),
    hexDigit (n / 16 % 16), hexDigit (n % 16)]

/-- `JSON.stringify` escaping of one character inside a string literal. -/
def jsEscapeChar (c : Char) : String :=
  if c = '"' then "\\\""
  else if c = '\\' then "\\\\"
  else if c = '\x08' then "\\b"
  else if c = '\x09' then "\\t"
  else if c = '\x0a' then "\\n"
  else if c = '\x0c' then "\\f"
  else if c = '\x0d' then "\\r"
  else if c.toNat < 32 then "\\u" ++ hex4 c.toNat
  else String.singleton c

/-- `JSON.stringify` of a string value. -/
def jsonQuote (s : String) : String :=
  "\"" ++ String.join (s.toList.map jsEscapeChar) ++ "\""

/-- `JSON.stringify({cmd: c})`: the outbound command frame. -/
def stringifyCmd (c : String) : String :=
  "\x7b\"cmd\":" ++ jsonQuote c ++ "\x7d"

/-- The completion callback created in `sendCommand`:
`if (result.status === 0) resolve(result.value) else
reject(new Error(result.value))`. -/
def runCb (pid : Nat) (res : Result) : Effect :=
  if res.status = 0 then Effect.resolve pid res.value
  else Effect.reject pid res.value

/-- First half of the connection `end` handler (lines 96–110): if a command is
in flight, either re-queue a `#more` continuation at the head of the queue
(result needs more data) or invoke the command's callback and clear the
in-flight marker; otherwise log and reset the accumulator's buffer. -/
def resolvePrior (s : ClientState) (res : Result) : ClientState × List Effect :=
  match s.curCommand with
  | some cur =>
      if res.needsMoreData then
        ({ s with
            commandQueue := Command.mk MORE_COMMAND cur.cb :: s.commandQueue }, [])
      else
        ({ s with curCommand := none }, [runCb cur.cb res])
  | none => (s, [Effect.resetBuffer])

/-- The `onReceiveCommand` closure body (lines 113–119): clear the deferred
hook, pop the head of the queue into `curCommand`, write the stringified
command frame on the captured connection and half-close it.  An empty queue
is the `undefined` dereference `this.curCommand.cmd`. -/
def dispatch (s : ClientState) (conn : Nat) :
    Except StepErr (ClientState × List Effect) :=
  match s.commandQueue with
  | [] => Except.error StepErr.dispatchOnEmpty
  | c :: rest =>
      Except.ok
        ({ s with
            onReceiveCommand := none
            curCommand := some c
            commandQueue := rest },
          [Effect.write conn (stringifyCmd c.cmd), Effect.halfClose conn])

/-- Second half of the connection `end` handler (lines 120–124):
`if (this.commandQueue.length) onReceiveCommand(); else
this.onReceiveCommand = onReceiveCommand;`. -/
def dispatchOrDefer (s : ClientState) (conn : Nat) :
    Except StepErr (ClientState × List Effect) :=
  if s.commandQueue.isEmpty then
    Except.ok ({ s with onReceiveCommand := some conn }, [])
  else dispatch s conn

/-- The whole connection `end` handler (lines 93–125). -/
def handleConnEnd (s : ClientState) (conn : Nat) (res : Result) :
    Except StepErr (ClientState × List Effect) :=
  let pr := resolvePrior s res
  match dispatchOrDefer pr.1 conn with
  | Except.ok (s2, eff2) => Except.ok (s2, pr.2 ++ eff2)
  | Except.error err => Except.error err

/-- `sendCommand(cmd)` (lines 43–59): create the promise `pid`, push
`{cmd, cb}` onto the queue, and if `this.onReceiveCommand` is a function,
invoke it. -/
def sendCommand (s : ClientState) (cmd : String) (pid : Nat) :
    Except StepErr (ClientState × List Effect) :=
  let s1 := { s with commandQueue := s.commandQueue ++ [Command.mk cmd pid] }
  match s1.onReceiveCommand with
  | some conn => dispatch s1 conn
  | none => Except.ok (s1, [])

/-- The connection handler passed to `net.createServer` (lines 69–84): on the
first ever accepted connection resolve `start`'s promise with `true`; always
record the connection as current. -/
def handleAccept (s : ClientState) (conn : Nat) : ClientState × List Effect :=
  if s.hasConnected then
    ({ s with currentSocket := some conn }, [])
  else
    ({ s with hasConnected := true, currentSocket := some conn },
      [Effect.resolveStart true])

/-- Outcome of the filesystem-preparation part of `start` (lines 132–139). -/
structure StartOutcome where
  listens : Bool
  futureRejected : Bool
deriving DecidableEq, Repr

/-- The tail of `start`'s promise executor: `await rimraf(this.sock); await
mkdirp(path.dirname(this.sock)); this.socketServer.listen(this.sock)`.
The executor passed to `new Promise` is an `async` function and only the
`resolve` parameter is bound; if `rimraf` or `mkdirp` rejects, the `await`
aborts the rest of the executor body (so `listen` is never reached) and the
async function's own rejection is discarded by the Promise constructor —
`reject` is never called on the returned promise, so it is never rejected. -/
def startPrep (rimrafOk mkdirpOk : Bool) : StartOutcome :=
  if rimrafOk then
    if mkdirpOk then { listens := true, futureRejected := false }
    else { listens := false, futureRejected := false }
  else { listens := false, futureRejected := false }

/-- `shutdown()` (lines 143–160): clear `curCommand` and `onReceiveCommand`;
if a current socket exists, end and destroy it and clear the reference; if a
server exists, await its close (which may reject — `closeOk` is the outcome)
and clear the reference. -/
def shutdown (s : ClientState) (closeOk : Bool) :
    Except StepErr (ClientState × List Effect) :=
  let s1 := { s with curCommand := none, onReceiveCommand := none }
  let p :=
    match s1.currentSocket with
    | some c =>
        ({ s1 with currentSocket := none },
          [Effect.sockEnd c, Effect.sockDestroy c])
    | none => (s1, ([] : List Effect))
  if p.1.socketServer then
    if closeOk then
      Except.ok ({ p.1 with socketServer := false }, p.2 ++ [Effect.serverClose])
    else Except.error StepErr.closeError
  else Except.ok p

/-- External stimuli driving the client. -/
inductive Event where
  /-- the listening server accepts connection `conn`. -/
  | accept (conn : Nat)
  /-- connection `conn` emits `end`; `res` is what the accumulator's
  `getResult()` returns at that point. -/
  | connEnd (conn : Nat) (res : Result)
  /-- the current connection emits `close`. -/
  | connClose
  /-- a caller invokes `sendCommand(cmd)`; `pid` is the fresh promise. -/
  | send (cmd : String) (pid : Nat)
  /-- a caller invokes `shutdown()`; `closeOk` is whether the server close
  succeeds. -/
  | shutdownEv (closeOk : Bool)
  /-- a caller invokes `start()`; the flags are the outcomes of `rimraf` and
  `mkdirp`. -/
  | startEv (rimrafOk mkdirpOk : Bool)
deriving DecidableEq, Repr

/-- One event-handler execution. -/
def step (s : ClientState) (e : Event) :
    Except StepErr (ClientState × List Effect) :=
  match e with
  | Event.accept conn => Except.ok (handleAccept s conn)
  | Event.connEnd conn res => handleConnEnd s conn res
  | Event.connClose => Except.ok ({ s with currentSocket := none }, [])
  | Event.send cmd pid => sendCommand s cmd pid
  | Event.shutdownEv closeOk => shutdown s closeOk
  | Event.startEv r m =>
      if (startPrep r m).listens then
        Except.ok ({ s with socketServer := true }, [])
      else Except.ok (s, [])

/-- Run a sequence of events from a state, accumulating effects; stops at the
first escaping exception. -/
def run (s : ClientState) : List Event → Except StepErr (ClientState × List Effect)
  | [] => Except.ok (s, [])
  | e :: rest =>
      match step s e with
      | Except.ok (s1, eff1) =>
          match run s1 rest with
          | Except.ok (s2, eff2) => Except.ok (s2, eff1 ++ eff2)
          | Except.error err => Except.error err
      | Except.error err => Except.error err

/-- States reachable from a fresh client by successful handler executions. -/
inductive Reachable : ClientState → Prop where
  | init : Reachable clientInit
  | next : ∀ {s e s' effs}, Reachable s →
      step s e = Except.ok (s', effs) → Reachable s'

/-- Is the effect a write of a command frame to the peer? -/
def isWrite : Effect → Bool
  | Effect.write _ _ => true
  | _ => false

/-- Does the effect settle (resolve or reject) a caller's promise? -/
def isSettle : Effect → Bool
  | Effect.resolve _ _ => true
  | Effect.reject _ _ => true
  | _ => false

/-- Does the effect settle the caller promise `pid` specifically? -/
def settlesPid (pid : Nat) : Effect → Bool
  | Effect.resolve p _ => p = pid
  | Effect.reject p _ => p = pid
  | _ => false

/-- Is the effect a resolution of the promise returned by `start`? -/
def isStartResolution : Effect → Bool
  | Effect.resolveStart _ => true
  | _ => false

/-! ### Basic unfolding lemmas -/

lemma step_connEnd_shape (s : ClientState) (conn : Nat) (res : Result) :
    step s (Event.connEnd conn res) =
      match dispatchOrDefer (resolvePrior s res).1 conn with
      | Except.ok (s2, eff2) => Except.ok (s2, (resolvePrior s res).2 ++ eff2)
      | Except.error err => Except.error err := rfl

lemma resolvePrior_more {s : ClientState} {res : Result} {c : Command}
    (hc : s.curCommand = some c) (hm : res.needsMoreData = true) :
    resolvePrior s res =
      ({ s with commandQueue := Command.mk MORE_COMMAND c.cb :: s.commandQueue },
        []) := by
  simp [resolvePrior, hc, hm]

lemma resolvePrior_done {s : ClientState} {res : Result} {c : Command}
    (hc : s.curCommand = some c) (hm : res.needsMoreData = false) :
    resolvePrior s res = ({ s with curCommand := none }, [runCb c.cb res]) := by
  simp [resolvePrior, hc, hm]

lemma resolvePrior_idle {s : ClientState} (res : Result)
    (hc : s.curCommand = none) :
    resolvePrior s res = (s, [Effect.resetBuffer]) := by
  simp [resolvePrior, hc]

lemma dispatch_cons {s : ClientState} {c : Command} {rest : List Command}
    (h : s.commandQueue = c :: rest) (conn : Nat) :
    dispatch s conn =
      Except.ok
        ({ s with
            onReceiveCommand := none
            curCommand := some c
            commandQueue := rest },
          [Effect.write conn (stringifyCmd c.cmd), Effect.halfClose conn]) := by
  simp [dispatch, h]

lemma dispatch_ne_dispatchOnEmpty {s : ClientState} (h : s.commandQueue ≠ [])
    (conn : Nat) : dispatch s conn ≠ Except.error StepErr.dispatchOnEmpty := by
  rcases hq : s.commandQueue with _ | ⟨c, rest⟩
  · exact absurd hq h
  · rw [dispatch_cons hq conn]
    simp

lemma dispatchOrDefer_nil {s : ClientState} (h : s.commandQueue = [])
    (conn : Nat) :
    dispatchOrDefer s conn =
      Except.ok ({ s with onReceiveCommand := some conn }, []) := by
  simp [dispatchOrDefer, h]

lemma dispatchOrDefer_cons {s : ClientState} {c : Command} {rest : List Command}
    (h : s.commandQueue = c :: rest) (conn : Nat) :
    dispatchOrDefer s conn =
      Except.ok
        ({ s with
            onReceiveCommand := none
            curCommand := some c
            commandQueue := rest },
          [Effect.write conn (stringifyCmd c.cmd), Effect.halfClose conn]) := by
  rw [dispatchOrDefer, if_neg, dispatch_cons h conn]
  simp [h]

lemma send_with_hook {s : ClientState} {conn : Nat}
    (ho : s.onReceiveCommand = some conn) (hq : s.commandQueue = [])
    (cmd : String) (pid : Nat) :
    step s (Event.send cmd pid) =
      Except.ok
        ({ s with
            onReceiveCommand := none
            curCommand := some (Command.mk cmd pid)
            commandQueue := [] },
          [Effect.write conn (stringifyCmd cmd), Effect.halfClose conn]) := by
  have hq' : ({ s with
      commandQueue := s.commandQueue ++ [Command.mk cmd pid] } :
        ClientState).commandQueue = Command.mk cmd pid :: [] := by
    simp [hq]
  show sendCommand s cmd pid = _
  simp only [sendCommand, ho]
  exact dispatch_cons hq' conn

lemma handleConnEnd_decomp {s : ClientState} {res : Result} {s1 : ClientState}
    {eff1 : List Effect} (h1 : resolvePrior s res = (s1, eff1)) (conn : Nat)
    {s2 : ClientState} {eff2 : List Effect}
    (h2 : dispatchOrDefer s1 conn = Except.ok (s2, eff2)) :
    step s (Event.connEnd conn res) = Except.ok (s2, eff1 ++ eff2) := by
  show handleConnEnd s conn res = _
  simp only [handleConnEnd, h1, h2]

@[simp]
lemma isSettle_runCb (pid : Nat) (res : Result) :
    isSettle (runCb pid res) = true := by
  unfold runCb
  split <;> rfl

@[simp]
lemma isWrite_runCb (pid : Nat) (res : Result) :
    isWrite (runCb pid res) = false := by
  unfold runCb
  split <;> rfl

@[simp]
lemma isStartResolution_runCb (pid : Nat) (res : Result) :
    isStartResolution (runCb pid res) = false := by
  unfold runCb
  split <;> rfl

@[simp]
lemma isStartResolution_write (conn : Nat) (f : String) :
    isStartResolution (Effect.write conn f) = false := rfl

@[simp]
lemma isStartResolution_halfClose (conn : Nat) :
    isStartResolution (Effect.halfClose conn) = false := rfl

@[simp]
lemma isStartResolution_resetBuffer :
    isStartResolution Effect.resetBuffer = false := rfl

@[simp]
lemma isWrite_resolve (pid : Nat) (v : String) :
    isWrite (Effect.resolve pid v) = false := rfl

@[simp]
lemma isWrite_reject (pid : Nat) (v : String) :
    isWrite (Effect.reject pid v) = false := rfl

@[simp]
lemma isWrite_resolveStart (b : Bool) :
    isWrite (Effect.resolveStart b) = false := rfl

@[simp]
lemma isWrite_sockEnd (conn : Nat) : isWrite (Effect.sockEnd conn) = false := rfl

@[simp]
lemma isWrite_sockDestroy (conn : Nat) :
    isWrite (Effect.sockDestroy conn) = false := rfl

@[simp]
lemma isWrite_serverClose : isWrite Effect.serverClose = false := rfl

@[simp]
lemma isSettle_resolve (pid : Nat) (v : String) :
    isSettle (Effect.resolve pid v) = true := rfl

@[simp]
lemma isSettle_reject (pid : Nat) (v : String) :
    isSettle (Effect.reject pid v) = true := rfl

@[simp]
lemma isSettle_resolveStart (b : Bool) :
    isSettle (Effect.resolveStart b) = false := rfl

@[simp]
lemma isSettle_sockEnd (conn : Nat) :
    isSettle (Effect.sockEnd conn) = false := rfl

@[simp]
lemma isSettle_sockDestroy (conn : Nat) :
    isSettle (Effect.sockDestroy conn) = false := rfl

@[simp]
lemma isSettle_serverClose : isSettle Effect.serverClose = false := rfl

@[simp]
lemma isStartResolution_resolveStart (b : Bool) :
    isStartResolution (Effect.resolveStart b) = true := rfl

@[simp]
lemma isStartResolution_resolve (pid : Nat) (v : String) :
    isStartResolution (Effect.resolve pid v) = false := rfl

@[simp]
lemma isStartResolution_reject (pid : Nat) (v : String) :
    isStartResolution (Effect.reject pid v) = false := rfl

@[simp]
lemma isStartResolution_sockEnd (conn : Nat) :
    isStartResolution (Effect.sockEnd conn) = false := rfl

@[simp]
lemma isStartResolution_sockDestroy (conn : Nat) :
    isStartResolution (Effect.sockDestroy conn) = false := rfl

@[simp]
lemma isStartResolution_serverClose :
    isStartResolution Effect.serverClose = false := rfl

@[simp]
lemma settlesPid_resolveStart (pid : Nat) (b : Bool) :
    settlesPid pid (Effect.resolveStart b) = false := rfl

@[simp]
lemma settlesPid_sockEnd (pid conn : Nat) :
    settlesPid pid (Effect.sockEnd conn) = false := rfl

@[simp]
lemma settlesPid_sockDestroy (pid conn : Nat) :
    settlesPid pid (Effect.sockDestroy conn) = false := rfl

@[simp]
lemma settlesPid_serverClose (pid : Nat) :
    settlesPid pid Effect.serverClose = false := rfl

@[simp]
lemma isSettle_write (conn : Nat) (f : String) :
    isSettle (Effect.write conn f) = false := rfl

@[simp]
lemma isSettle_halfClose (conn : Nat) :
    isSettle (Effect.halfClose conn) = false := rfl

@[simp]
lemma isSettle_resetBuffer : isSettle Effect.resetBuffer = false := rfl

@[simp]
lemma isWrite_write (conn : Nat) (f : String) :
    isWrite (Effect.write conn f) = true := rfl

@[simp]
lemma isWrite_halfClose (conn : Nat) :
    isWrite (Effect.halfClose conn) = false := rfl

@[simp]
lemma isWrite_resetBuffer : isWrite Effect.resetBuffer = false := rfl

@[simp]
lemma settlesPid_runCb (pid : Nat) (res : Result) :
    settlesPid pid (runCb pid res) = true := by
  unfold runCb
  split <;> simp [settlesPid]

@[simp]
lemma settlesPid_write (pid conn : Nat) (f : String) :
    settlesPid pid (Effect.write conn f) = false := rfl

@[simp]
lemma settlesPid_halfClose (pid conn : Nat) :
    settlesPid pid (Effect.halfClose conn) = false := rfl

@[simp]
lemma settlesPid_resetBuffer (pid : Nat) :
    settlesPid pid Effect.resetBuffer = false := rfl

/-! ### Inversion lemmas: the possible outcomes of each handler -/

lemma resolvePrior_cases (s : ClientState) (res : Result) :
    (s.curCommand = none ∧ resolvePrior s res = (s, [Effect.resetBuffer])) ∨
    (∃ c, s.curCommand = some c ∧ res.needsMoreData = true ∧
      resolvePrior s res =
        ({ s with
            commandQueue := Command.mk MORE_COMMAND c.cb :: s.commandQueue },
          [])) ∨
    (∃ c, s.curCommand = some c ∧ res.needsMoreData = false ∧
      resolvePrior s res = ({ s with curCommand := none }, [runCb c.cb res])) := by
  rcases hc : s.curCommand with _ | c
  · exact Or.inl ⟨rfl, resolvePrior_idle res hc⟩
  · cases hm : res.needsMoreData
    · exact Or.inr (Or.inr ⟨c, rfl, rfl, resolvePrior_done hc hm⟩)
    · refine Or.inr (Or.inl ⟨c, rfl, rfl, ?_⟩)
      rw [resolvePrior_more hc hm]
      simp [hc]

lemma connEnd_cases {s : ClientState} {conn : Nat} {res : Result}
    {s' : ClientState} {effs : List Effect}
    (h : step s (Event.connEnd conn res) = Except.ok (s', effs)) :
    ((resolvePrior s res).1.commandQueue = [] ∧
      s' = { (resolvePrior s res).1 with onReceiveCommand := some conn } ∧
      effs = (resolvePrior s res).2) ∨
    (∃ c rest, (resolvePrior s res).1.commandQueue = c :: rest ∧
      s' = { (resolvePrior s res).1 with
              onReceiveCommand := none
              curCommand := some c
              commandQueue := rest } ∧
      effs = (resolvePrior s res).2 ++
        [Effect.write conn (stringifyCmd c.cmd), Effect.halfClose conn]) := by
  have hpr : resolvePrior s res =
      ((resolvePrior s res).1, (resolvePrior s res).2) := rfl
  rcases hq : (resolvePrior s res).1.commandQueue with _ | ⟨c, rest⟩
  · have h2 := handleConnEnd_decomp hpr conn (dispatchOrDefer_nil hq conn)
    rw [h] at h2
    injection h2 with h2
    injection h2 with h2a h2b
    refine Or.inl ⟨rfl, h2a, ?_⟩
    rw [h2b, List.append_nil]
  · have h2 := handleConnEnd_decomp hpr conn (dispatchOrDefer_cons hq conn)
    rw [h] at h2
    injection h2 with h2
    injection h2 with h2a h2b
    exact Or.inr ⟨c, rest, rfl, h2a, h2b⟩

lemma send_cases {s : ClientState} {cmd : String} {pid : Nat}
    {s' : ClientState} {effs : List Effect}
    (h : step s (Event.send cmd pid) = Except.ok (s', effs)) :
    (s.onReceiveCommand = none ∧
      s' = { s with commandQueue := s.commandQueue ++ [Command.mk cmd pid] } ∧
      effs = []) ∨
    (∃ conn c rest, s.onReceiveCommand = some conn ∧
      s.commandQueue ++ [Command.mk cmd pid] = c :: rest ∧
      s' = { s with
              onReceiveCommand := none
              curCommand := some c
              commandQueue := rest } ∧
      effs = [Effect.write conn (stringifyCmd c.cmd), Effect.halfClose conn]) := by
  have hs : step s (Event.send cmd pid) = sendCommand s cmd pid := rfl
  rw [hs] at h
  unfold sendCommand at h
  rcases ho : s.onReceiveCommand with _ | conn
  · simp only [ho] at h
    injection h with h
    injection h with h1 h2
    exact Or.inl ⟨rfl, h1.symm, h2.symm⟩
  · simp only [ho] at h
    rcases hq : s.commandQueue ++ [Command.mk cmd pid] with _ | ⟨c, rest⟩
    · exact absurd hq (by simp)
    · have hq' : ({ s with
          onReceiveCommand := some conn
          commandQueue := s.commandQueue ++ [Command.mk cmd pid] } :
            ClientState).commandQueue = c :: rest := hq
      rw [dispatch_cons hq' conn] at h
      injection h with h
      injection h with h1 h2
      exact Or.inr ⟨conn, c, rest, rfl, rfl, h1.symm, h2.symm⟩

lemma accept_cases {s : ClientState} {conn : Nat}
    {s' : ClientState} {effs : List Effect}
    (h : step s (Event.accept conn) = Except.ok (s', effs)) :
    (s.hasConnected = true ∧ s' = { s with currentSocket := some conn } ∧
      effs = []) ∨
    (s.hasConnected = false ∧
      s' = { s with hasConnected := true, currentSocket := some conn } ∧
      effs = [Effect.resolveStart true]) := by
  have hs : step s (Event.accept conn) = Except.ok (handleAccept s conn) := rfl
  rw [hs] at h
  unfold handleAccept at h
  cases hb : s.hasConnected
  · rw [hb] at h
    rw [if_neg (by simp)] at h
    injection h with h
    injection h with h1 h2
    exact Or.inr ⟨rfl, h1.symm, h2.symm⟩
  · rw [hb] at h
    rw [if_pos rfl] at h
    injection h with h
    injection h with h1 h2
    exact Or.inl ⟨rfl, h1.symm, h2.symm⟩

lemma connClose_cases {s : ClientState} {s' : ClientState} {effs : List Effect}
    (h : step s Event.connClose = Except.ok (s', effs)) :
    s' = { s with currentSocket := none } ∧ effs = [] := by
  injection h with h
  injection h with h1 h2
  exact ⟨h1.symm, h2.symm⟩

lemma shutdown_cases {s : ClientState} {closeOk : Bool}
    {s' : ClientState} {effs : List Effect}
    (h : step s (Event.shutdownEv closeOk) = Except.ok (s', effs)) :
    s'.curCommand = none ∧ s'.onReceiveCommand = none ∧
    s'.currentSocket = none ∧ s'.socketServer = false ∧
    s'.commandQueue = s.commandQueue ∧ s'.hasConnected = s.hasConnected ∧
    s'.sock = s.sock ∧
    effs.filter isWrite = [] ∧ effs.filter isSettle = [] ∧
    effs.filter isStartResolution = [] ∧ (∀ pid, effs.filter (settlesPid pid) = []) := by
  have hs : step s (Event.shutdownEv closeOk) = shutdown s closeOk := rfl
  rw [hs] at h
  unfold shutdown at h
  rcases hcs : s.currentSocket with _ | c <;>
    cases hss : s.socketServer <;> cases closeOk <;>
    simp [hcs, hss] at h <;>
    obtain ⟨rfl, rfl⟩ := h <;>
    exact ⟨rfl, rfl, rfl, rfl, rfl, rfl, rfl, rfl, rfl, rfl, fun pid => rfl⟩

lemma startEv_cases {s : ClientState} {r m : Bool}
    {s' : ClientState} {effs : List Effect}
    (h : step s (Event.startEv r m) = Except.ok (s', effs)) :
    effs = [] ∧
    (s' = { s with socketServer := true } ∨ s' = s) ∧
    s'.curCommand = s.curCommand ∧ s'.onReceiveCommand = s.onReceiveCommand ∧
    s'.commandQueue = s.commandQueue ∧ s'.hasConnected = s.hasConnected := by
  have hs : step s (Event.startEv r m) =
      (if (startPrep r m).listens then
        Except.ok ({ s with socketServer := true }, [])
      else Except.ok (s, [])) := rfl
  rw [hs] at h
  split at h
  · injection h with h
    injection h with h1 h2
    subst h1
    subst h2
    exact ⟨rfl, Or.inl rfl, rfl, rfl, rfl, rfl⟩
  · injection h with h
    injection h with h1 h2
    subst h1
    subst h2
    exact ⟨rfl, Or.inr rfl, rfl, rfl, rfl, rfl⟩

lemma run_nil_inv {s s' : ClientState} {effs : List Effect}
    (h : run s [] = Except.ok (s', effs)) : s' = s ∧ effs = [] := by
  unfold run at h
  injection h with h
  injection h with h1 h2
  exact ⟨h1.symm, h2.symm⟩

lemma run_cons_ok {s : ClientState} {e : Event} (evs : List Event)
    {s1 : ClientState} {eff1 : List Effect}
    (hstep : step s e = Except.ok (s1, eff1)) :
    run s (e :: evs) =
      match run s1 evs with
      | Except.ok (s2, eff2) => Except.ok (s2, eff1 ++ eff2)
      | Except.error err => Except.error err := by
  show (match step s e with
    | Except.ok (s1, eff1) =>
      match run s1 evs with
      | Except.ok (s2, eff2) => Except.ok (s2, eff1 ++ eff2)
      | Except.error err => Except.error err
    | Except.error err => Except.error err) = _
  rw [hstep]

lemma run_cons_err {s : ClientState} {e : Event} (evs : List Event)
    {err : StepErr} (hstep : step s e = Except.error err) :
    run s (e :: evs) = Except.error err := by
  show (match step s e with
    | Except.ok (s1, eff1) =>
      match run s1 evs with
      | Except.ok (s2, eff2) => Except.ok (s2, eff1 ++ eff2)
      | Except.error err => Except.error err
    | Except.error err => Except.error err) = _
  rw [hstep]

lemma run_cons_inv {s : ClientState} {e : Event} {evs : List Event}
    {s' : ClientState} {effs : List Effect}
    (h : run s (e :: evs) = Except.ok (s', effs)) :
    ∃ s1 eff1 eff2, step s e = Except.ok (s1, eff1) ∧
      run s1 evs = Except.ok (s', eff2) ∧ effs = eff1 ++ eff2 := by
  rcases hstep : step s e with err | ⟨s1, eff1⟩
  · rw [run_cons_err evs hstep] at h
    exact Except.noConfusion h
  · rw [run_cons_ok evs hstep] at h
    rcases hrun : run s1 evs with err | ⟨s2, eff2⟩
    · rw [hrun] at h
      exact Except.noConfusion h
    · rw [hrun] at h
      have h' : Except.ok (s2, eff1 ++ eff2) = Except.ok (s', effs) := h
      injection h' with h'
      injection h' with h1 h2
      subst h1
      exact ⟨s1, eff1, eff2, rfl, hrun, h2.symm⟩

lemma startRes_of_preserved {s s' : ClientState} {effs : List Effect}
    (hc : s'.hasConnected = s.hasConnected)
    (hf : effs.filter isStartResolution = []) :
    (s.hasConnected = true → s'.hasConnected = true) ∧
    (s.hasConnected = true → effs.filter isStartResolution = []) ∧
    (s'.hasConnected = false → effs.filter isStartResolution = []) ∧
    (s.hasConnected = false → s'.hasConnected = true →
      effs.filter isStartResolution = [Effect.resolveStart true]) := by
  refine ⟨fun ht => by rw [hc, ht], fun _ => hf, fun _ => hf, fun hf0 ht => ?_⟩
  rw [hc, hf0] at ht
  exact Bool.noConfusion ht

lemma resolvePrior_hasConnected (s : ClientState) (res : Result) :
    (resolvePrior s res).1.hasConnected = s.hasConnected := by
  rcases resolvePrior_cases s res with ⟨_, hpr⟩ | ⟨c, _, _, hpr⟩ | ⟨c, _, _, hpr⟩ <;>
    rw [hpr]

lemma resolvePrior_no_startRes (s : ClientState) (res : Result) :
    (resolvePrior s res).2.filter isStartResolution = [] := by
  rcases resolvePrior_cases s res with ⟨_, hpr⟩ | ⟨c, _, _, hpr⟩ | ⟨c, _, _, hpr⟩ <;>
    rw [hpr] <;> simp [List.filter_cons]

lemma step_startRes {s : ClientState} {e : Event} {s' : ClientState}
    {effs : List Effect} (h : step s e = Except.ok (s', effs)) :
    (s.hasConnected = true → s'.hasConnected = true) ∧
    (s.hasConnected = true → effs.filter isStartResolution = []) ∧
    (s'.hasConnected = false → effs.filter isStartResolution = []) ∧
    (s.hasConnected = false → s'.hasConnected = true →
      effs.filter isStartResolution = [Effect.resolveStart true]) := by
  cases e with
  | accept conn =>
      rcases accept_cases h with ⟨hb, rfl, rfl⟩ | ⟨hb, rfl, rfl⟩
      · exact startRes_of_preserved rfl rfl
      · refine ⟨fun _ => rfl, fun ht => ?_, fun hf => ?_, fun _ _ => rfl⟩
        · rw [hb] at ht
          exact Bool.noConfusion ht
        · exact absurd hf (by simp)
  | connEnd conn res =>
      rcases connEnd_cases h with ⟨hq, rfl, heff⟩ | ⟨c, rest, hq, rfl, heff⟩
      · refine startRes_of_preserved (resolvePrior_hasConnected s res) ?_
        rw [heff]
        exact resolvePrior_no_startRes s res
      · refine startRes_of_preserved (resolvePrior_hasConnected s res) ?_
        rw [heff, List.filter_append, resolvePrior_no_startRes s res]
        rfl
  | connClose =>
      obtain ⟨rfl, rfl⟩ := connClose_cases h
      exact startRes_of_preserved rfl rfl
  | send cmd pid =>
      rcases send_cases h with ⟨_, rfl, rfl⟩ | ⟨conn, c, rest, _, _, rfl, rfl⟩
      · exact startRes_of_preserved rfl rfl
      · exact startRes_of_preserved rfl rfl
  | shutdownEv closeOk =>
      have hsd := shutdown_cases h
      exact startRes_of_preserved hsd.2.2.2.2.2.1 hsd.2.2.2.2.2.2.2.2.2.1
  | startEv r m =>
      have hse := startEv_cases h
      exact startRes_of_preserved hse.2.2.2.2.2 (by rw [hse.1]; rfl)

lemma run_startRes : ∀ (evs : List Event) {s s' : ClientState}
    {effs : List Effect}, run s evs = Except.ok (s', effs) →
    (s.hasConnected = true → s'.hasConnected = true) ∧
    (s.hasConnected = true → effs.filter isStartResolution = []) ∧
    (s'.hasConnected = false → effs.filter isStartResolution = []) ∧
    (s.hasConnected = false → s'.hasConnected = true →
      effs.filter isStartResolution = [Effect.resolveStart true]) := by
  intro evs
  induction evs with
  | nil =>
      intro s s' effs h
      obtain ⟨rfl, rfl⟩ := run_nil_inv h
      exact ⟨fun ht => ht, fun _ => rfl, fun _ => rfl,
        fun hf ht => absurd ht (by simp [hf])⟩
  | cons e rest ih =>
      intro s s' effs h
      obtain ⟨s1, eff1, eff2, hstep, hrun, rfl⟩ := run_cons_inv h
      have A := step_startRes hstep
      have B := ih hrun
      rw [List.filter_append]
      refine ⟨fun ht => B.1 (A.1 ht),
        fun ht => by
          rw [A.2.1 ht, B.2.1 (A.1 ht)]
          rfl,
        fun hf => ?_, fun hf ht => ?_⟩
      · have h1 : s1.hasConnected = false := by
          cases hb : s1.hasConnected
          · rfl
          · rw [B.1 hb] at hf
            exact Bool.noConfusion hf
        rw [A.2.2.1 h1, B.2.2.1 hf]
        rfl
      · cases hb : s1.hasConnected
        · rw [A.2.2.1 hb, B.2.2.2 hb ht]
          rfl
        · rw [A.2.2.2 hf hb, B.2.1 hb]
          rfl

lemma run_accept_connected : ∀ (evs : List Event) {s s' : ClientState}
    {effs : List Effect}, run s evs = Except.ok (s', effs) →
    (∃ conn, Event.accept conn ∈ evs) → s'.hasConnected = true := by
  intro evs
  induction evs with
  | nil =>
      intro s s' effs h hm
      rcases hm with ⟨conn, hm⟩
      exact absurd hm (List.not_mem_nil _)
  | cons e rest ih =>
      intro s s' effs h hm
      obtain ⟨s1, eff1, eff2, hstep, hrun, rfl⟩ := run_cons_inv h
      rcases hm with ⟨conn, hm⟩
      rcases List.mem_cons.mp hm with heq | hmem
      · subst heq
        have h1 : s1.hasConnected = true := by
          rcases accept_cases hstep with ⟨hb, rfl, _⟩ | ⟨hb, rfl, _⟩
          · exact hb
          · rfl
        exact (run_startRes rest hrun).1 h1
      · exact ih hrun ⟨conn, hmem⟩

lemma resolvePrior_no_writes (s : ClientState) (res : Result) :
    (resolvePrior s res).2.filter isWrite = [] := by
  rcases resolvePrior_cases s res with ⟨_, hpr⟩ | ⟨c, _, _, hpr⟩ | ⟨c, _, _, hpr⟩ <;>
    rw [hpr] <;> simp [List.filter_cons]

lemma hookClear_preserved {s : ClientState} {e : Event} {s' : ClientState}
    {effs : List Effect} (h : step s e = Except.ok (s', effs))
    (inv : ∀ conn, s.onReceiveCommand = some conn → s.curCommand = none) :
    ∀ conn, s'.onReceiveCommand = some conn → s'.curCommand = none := by
  cases e with
  | accept conn0 =>
      rcases accept_cases h with ⟨_, rfl, _⟩ | ⟨_, rfl, _⟩ <;> exact inv
  | connEnd conn0 res =>
      rcases connEnd_cases h with ⟨hq, rfl, _⟩ | ⟨c, rest, hq, rfl, _⟩
      · intro conn hc
        rcases resolvePrior_cases s res with ⟨hcur, hpr⟩ | ⟨c0, hcur, hm, hpr⟩ |
          ⟨c0, hcur, hm, hpr⟩
        · show (resolvePrior s res).1.curCommand = none
          rw [hpr]
          exact hcur
        · simp [hpr] at hq
        · show (resolvePrior s res).1.curCommand = none
          rw [hpr]
      · intro conn hc
        exact Option.noConfusion hc
  | connClose =>
      obtain ⟨rfl, _⟩ := connClose_cases h
      exact inv
  | send cmd pid =>
      rcases send_cases h with ⟨ho, rfl, _⟩ | ⟨conn0, c, rest, ho, hq, rfl, _⟩
      · exact inv
      · intro conn hc
        exact Option.noConfusion hc
  | shutdownEv closeOk =>
      have hsd := shutdown_cases h
      intro conn hc
      exact hsd.1
  | startEv r m =>
      have hse := startEv_cases h
      intro conn hc
      rw [hse.2.2.2.1] at hc
      rw [hse.2.2.1]
      exact inv conn hc

lemma reachable_hookClear {s : ClientState} (hs : Reachable s) :
    ∀ conn, s.onReceiveCommand = some conn → s.curCommand = none := by
  induction hs with
  | init =>
      intro conn hc
      exact Option.noConfusion hc
  | next hr hstep ih => exact hookClear_preserved hstep ih

/-! ### Claims -/

/-- C9: popping an empty queue would be a crash (`commandQueue.shift()`
yields `undefined` and `this.curCommand.cmd` throws), yet whenever the
dispatch hook `onReceiveCommand` actually runs — directly on a connection
`end` event, or deferred via `sendCommand` — the pending queue is non-empty,
so no handler execution ever raises that crash. -/
theorem c9_dispatch_never_on_empty_queue :
    (∀ (s : ClientState) (conn : Nat), s.commandQueue = [] →
      dispatch s conn = Except.error StepErr.dispatchOnEmpty) ∧
    (∀ (s : ClientState) (e : Event),
      step s e ≠ Except.error StepErr.dispatchOnEmpty) := by
  constructor
  · intro s conn h
    simp [dispatch, h]
  · intro s e
    cases e with
    | accept conn => simp [step]
    | connEnd conn res =>
        rw [step_connEnd_shape]
        rcases hq : (resolvePrior s res).1.commandQueue with _ | ⟨c, rest⟩
        · rw [dispatchOrDefer_nil hq conn]
          simp
        · rw [dispatchOrDefer_cons hq conn]
          simp
    | connClose => simp [step]
    | send cmd pid =>
        show sendCommand s cmd pid ≠ _
        unfold sendCommand
        rcases ho : s.onReceiveCommand with _ | conn
        · simp [ho]
        · simp only [ho]
          exact dispatch_ne_dispatchOnEmpty (by simp) conn
    | shutdownEv closeOk =>
        show shutdown s closeOk ≠ _
        unfold shutdown
        rcases hcs : s.currentSocket with _ | c <;>
          rcases hss : s.socketServer with _ | _ <;>
          cases closeOk <;> simp [hcs, hss]
    | startEv r m =>
        show (if (startPrep r m).listens then _ else _) ≠ _
        split <;> simp

/-- C9 witness: a deferred dispatch triggered by `sendCommand` on a fresh
client with the hook installed succeeds (the freshly pushed command makes the
queue non-empty). -/
theorem c9_witness :
    ({ clientInit with onReceiveCommand := some 0 } : ClientState).commandQueue
        = [] ∧
    dispatch { clientInit with onReceiveCommand := some 0 } 0
        = Except.error StepErr.dispatchOnEmpty ∧
    step { clientInit with onReceiveCommand := some 0 } (Event.send "tap" 1)
        ≠ Except.error StepErr.dispatchOnEmpty :=
  ⟨rfl,
    c9_dispatch_never_on_empty_queue.1 { clientInit with onReceiveCommand := some 0 } 0 rfl,
    c9_dispatch_never_on_empty_queue.2 { clientInit with onReceiveCommand := some 0 }
      (Event.send "tap" 1)⟩

/-- C10: `sendCommand` performs no validation on the identifier: every string
— including the empty string and the reserved `'#more'` sentinel — is pushed
as `{cmd, cb}` onto the tail of the queue, and when its turn comes the
dispatch step treats it exactly like any other command (same frame encoding,
same write and half-close). -/
theorem c10_send_accepts_any_identifier (s : ClientState) (cmd : String)
    (pid : Nat) :
    (s.onReceiveCommand = none →
      sendCommand s cmd pid =
        Except.ok
          ({ s with commandQueue := s.commandQueue ++ [Command.mk cmd pid] },
            [])) ∧
    (∀ conn, s.onReceiveCommand = some conn →
      sendCommand s cmd pid =
        dispatch
          { s with commandQueue := s.commandQueue ++ [Command.mk cmd pid] }
          conn) ∧
    (∀ conn rest, s.commandQueue = Command.mk cmd pid :: rest →
      dispatch s conn =
        Except.ok
          ({ s with
              onReceiveCommand := none
              curCommand := some (Command.mk cmd pid)
              commandQueue := rest },
            [Effect.write conn (stringifyCmd cmd), Effect.halfClose conn])) := by
  refine ⟨fun h => ?_, fun conn h => ?_, fun conn rest h => ?_⟩
  · unfold sendCommand
    simp [h]
  · unfold sendCommand
    simp [h]
  · exact dispatch_cons h conn

/-- C10 witness: the sentinel identifier `'#more'` and the empty identifier
are both accepted and queued like any command. -/
theorem c10_witness :
    sendCommand clientInit "#more" 0 =
      Except.ok
        ({ clientInit with commandQueue := [Command.mk "#more" 0] }, []) ∧
    sendCommand clientInit "" 1 =
      Except.ok ({ clientInit with commandQueue := [Command.mk "" 1] }, []) ∧
    dispatch { clientInit with commandQueue := [Command.mk "#more" 0] } 5 =
      Except.ok
        ({ clientInit with
            onReceiveCommand := none
            curCommand := some (Command.mk "#more" 0)
            commandQueue := [] },
          [Effect.write 5 (stringifyCmd "#more"), Effect.halfClose 5]) :=
  ⟨(c10_send_accepts_any_identifier clientInit "#more" 0).1 rfl,
    (c10_send_accepts_any_identifier clientInit "" 1).1 rfl,
    (c10_send_accepts_any_identifier
        { clientInit with commandQueue := [Command.mk "#more" 0] } "#more" 0).2.2
      5 [] rfl⟩

/-- C2: when the final result of an in-flight command is processed (connection
`end` with `needsMoreData` false), the only promise settlement performed is
the in-flight command's callback: `resolve(result.value)` when
`result.status === 0`, and `reject(new Error(result.value))` — an error whose
message is the result's value — for any other status. -/
theorem c2_final_result_settlement (s : ClientState) (conn : Nat)
    (res : Result) (c : Command) (hc : s.curCommand = some c)
    (hm : res.needsMoreData = false) :
    ∃ s' effs, step s (Event.connEnd conn res) = Except.ok (s', effs) ∧
      effs.filter isSettle = [runCb c.cb res] ∧
      (res.status = 0 → runCb c.cb res = Effect.resolve c.cb res.value) ∧
      (res.status ≠ 0 → runCb c.cb res = Effect.reject c.cb res.value) := by
  have hval : (res.status = 0 → runCb c.cb res = Effect.resolve c.cb res.value) ∧
      (res.status ≠ 0 → runCb c.cb res = Effect.reject c.cb res.value) := by
    constructor <;> intro h <;> simp [runCb, h]
  rcases hq : s.commandQueue with _ | ⟨d, rest⟩
  · have hq' : ({ s with curCommand := none } : ClientState).commandQueue = [] :=
      hq
    exact ⟨_, _,
      handleConnEnd_decomp (resolvePrior_done hc hm) conn
        (dispatchOrDefer_nil hq' conn),
      by simp [List.filter_cons], hval.1, hval.2⟩
  · have hq' : ({ s with curCommand := none } : ClientState).commandQueue =
        d :: rest := hq
    exact ⟨_, _,
      handleConnEnd_decomp (resolvePrior_done hc hm) conn
        (dispatchOrDefer_cons hq' conn),
      by simp [List.filter_cons], hval.1, hval.2⟩

/-- C2 witness: a success result with status 0 resolves the in-flight
command's promise with the result's value; evaluated on a concrete client. -/
theorem c2_witness :
    ∃ s' effs,
      step { clientInit with curCommand := some (Command.mk "tap" 7) }
          (Event.connEnd 0 (Result.mk 0 "done" false)) =
        Except.ok (s', effs) ∧
      effs.filter isSettle =
        [runCb (Command.mk "tap" 7).cb (Result.mk 0 "done" false)] ∧
      ((Result.mk 0 "done" false : Result).status = 0 →
        runCb (Command.mk "tap" 7).cb (Result.mk 0 "done" false) =
          Effect.resolve (Command.mk "tap" 7).cb
            (Result.mk 0 "done" false).value) ∧
      ((Result.mk 0 "done" false : Result).status ≠ 0 →
        runCb (Command.mk "tap" 7).cb (Result.mk 0 "done" false) =
          Effect.reject (Command.mk "tap" 7).cb
            (Result.mk 0 "done" false).value) :=
  c2_final_result_settlement
    { clientInit with curCommand := some (Command.mk "tap" 7) } 0
    (Result.mk 0 "done" false) (Command.mk "tap" 7) rfl rfl

/-- C3: on a connection `end` event with an in-flight command whose result
needs more data, a continuation command with the reserved `'#more'` identifier
and the same callback is unshifted at the head (not the tail) of the pending
queue, and the in-flight command's promise is neither resolved nor rejected by
that event (the continuation immediately becomes the new in-flight command,
leaving the rest of the queue as it was). -/
theorem c3_more_data_continuation (s : ClientState) (conn : Nat)
    (res : Result) (c : Command) (hc : s.curCommand = some c)
    (hm : res.needsMoreData = true) :
    (resolvePrior s res).1.commandQueue =
      Command.mk MORE_COMMAND c.cb :: s.commandQueue ∧
    (resolvePrior s res).2 = [] ∧
    ∃ s' effs, step s (Event.connEnd conn res) = Except.ok (s', effs) ∧
      effs.filter isSettle = [] ∧
      s'.curCommand = some (Command.mk MORE_COMMAND c.cb) ∧
      s'.commandQueue = s.commandQueue := by
  refine ⟨?_, ?_, ?_⟩
  · simp [resolvePrior_more hc hm]
  · simp [resolvePrior_more hc hm]
  · have hq' : ({ s with
        commandQueue := Command.mk MORE_COMMAND c.cb :: s.commandQueue } :
          ClientState).commandQueue =
        Command.mk MORE_COMMAND c.cb :: s.commandQueue := rfl
    exact ⟨_, _,
      handleConnEnd_decomp (resolvePrior_more hc hm) conn
        (dispatchOrDefer_cons hq' conn),
      by simp [List.filter_cons], rfl, rfl⟩

/-- C3 witness: with command 9 in flight and a partial result, the `#more`
continuation (same callback 9) is dispatched and nothing is settled. -/
theorem c3_witness :
    (resolvePrior
          { clientInit with
              curCommand := some (Command.mk "flick" 9)
              commandQueue := [Command.mk "other" 10] }
          (Result.mk 0 "" true)).1.commandQueue =
      Command.mk MORE_COMMAND (Command.mk "flick" 9).cb ::
        ({ clientInit with
            curCommand := some (Command.mk "flick" 9)
            commandQueue := [Command.mk "other" 10] } : ClientState).commandQueue ∧
    (resolvePrior
          { clientInit with
              curCommand := some (Command.mk "flick" 9)
              commandQueue := [Command.mk "other" 10] }
          (Result.mk 0 "" true)).2 = [] ∧
    ∃ s' effs,
      step
          { clientInit with
              curCommand := some (Command.mk "flick" 9)
              commandQueue := [Command.mk "other" 10] }
          (Event.connEnd 3 (Result.mk 0 "" true)) =
        Except.ok (s', effs) ∧
      effs.filter isSettle = [] ∧
      s'.curCommand = some (Command.mk MORE_COMMAND (Command.mk "flick" 9).cb) ∧
      s'.commandQueue =
        ({ clientInit with
            curCommand := some (Command.mk "flick" 9)
            commandQueue := [Command.mk "other" 10] } : ClientState).commandQueue :=
  c3_more_data_continuation
    { clientInit with
        curCommand := some (Command.mk "flick" 9)
        commandQueue := [Command.mk "other" 10] }
    3 (Result.mk 0 "" true) (Command.mk "flick" 9) rfl rfl

/-- C8: on a connection `end` event with no command in flight, the frame is
discarded: the accumulator's buffer is reset, no caller promise is resolved or
rejected, no exception escapes (non-fatal), and the dispatch step still runs —
sending the head of the queue if one is pending, or registering the deferred
hook if the queue is empty. -/
theorem c8_unsolicited_frame_discarded (s : ClientState) (conn : Nat)
    (res : Result) (hc : s.curCommand = none) :
    ∃ s' effs, step s (Event.connEnd conn res) = Except.ok (s', effs) ∧
      Effect.resetBuffer ∈ effs ∧
      effs.filter isSettle = [] ∧
      (s.commandQueue = [] →
        s'.onReceiveCommand = some conn ∧ effs = [Effect.resetBuffer]) ∧
      (∀ c rest, s.commandQueue = c :: rest →
        s'.curCommand = some c ∧ s'.commandQueue = rest ∧
        effs = [Effect.resetBuffer, Effect.write conn (stringifyCmd c.cmd),
          Effect.halfClose conn]) := by
  rcases hq : s.commandQueue with _ | ⟨c, rest⟩
  · have hstep := handleConnEnd_decomp (resolvePrior_idle res hc) conn
      (dispatchOrDefer_nil hq conn)
    exact ⟨_, _, hstep, by simp, by simp [List.filter_cons],
      fun _ => ⟨rfl, rfl⟩, fun c rest h => List.noConfusion h⟩
  · have hstep := handleConnEnd_decomp (resolvePrior_idle res hc) conn
      (dispatchOrDefer_cons hq conn)
    refine ⟨_, _, hstep, by simp, by simp [List.filter_cons],
      fun h => List.noConfusion h, fun c' rest' h => ?_⟩
    injection h with h1 h2
    subst h1
    subst h2
    exact ⟨rfl, rfl, rfl⟩

/-- C8 witness: an unsolicited frame on an idle client with one queued command
resets the buffer, settles nothing, and dispatches the queued command. -/
theorem c8_witness :
    ∃ s' effs,
      step { clientInit with commandQueue := [Command.mk "next" 4] }
          (Event.connEnd 2 (Result.mk 0 "junk" false)) =
        Except.ok (s', effs) ∧
      Effect.resetBuffer ∈ effs ∧
      effs.filter isSettle = [] ∧
      (({ clientInit with
            commandQueue := [Command.mk "next" 4] } : ClientState).commandQueue
          = [] →
        s'.onReceiveCommand = some 2 ∧ effs = [Effect.resetBuffer]) ∧
      (∀ c rest,
        ({ clientInit with
            commandQueue := [Command.mk "next" 4] } : ClientState).commandQueue
          = c :: rest →
        s'.curCommand = some c ∧ s'.commandQueue = rest ∧
        effs = [Effect.resetBuffer, Effect.write 2 (stringifyCmd c.cmd),
          Effect.halfClose 2]) :=
  c8_unsolicited_frame_discarded
    { clientInit with commandQueue := [Command.mk "next" 4] } 2
    (Result.mk 0 "junk" false) rfl

/-- C5: after the resolve-prior phase of a connection `end` event, the
dispatch step pops the head of the pending queue into the in-flight marker,
writes the frame `JSON.stringify(\x7bcmd: identifier\x7d)` on the current
connection and half-closes it; when the queue is empty it instead registers
the deferred hook, and the next `sendCommand` call performs the same dispatch
immediately (same write and half-close of its freshly queued command). -/
theorem c5_dispatch_or_defer (s : ClientState) (conn : Nat) (res : Result) :
    (∀ c rest, (resolvePrior s res).1.commandQueue = c :: rest →
      ∃ s', step s (Event.connEnd conn res) =
          Except.ok (s', (resolvePrior s res).2 ++
            [Effect.write conn (stringifyCmd c.cmd), Effect.halfClose conn]) ∧
        s'.curCommand = some c ∧ s'.commandQueue = rest ∧
        s'.onReceiveCommand = none) ∧
    ((resolvePrior s res).1.commandQueue = [] →
      ∃ s', step s (Event.connEnd conn res) =
          Except.ok (s', (resolvePrior s res).2) ∧
        s'.onReceiveCommand = some conn ∧
        ∀ cmd pid, ∃ s2, step s' (Event.send cmd pid) =
            Except.ok (s2,
              [Effect.write conn (stringifyCmd cmd), Effect.halfClose conn]) ∧
          s2.curCommand = some (Command.mk cmd pid) ∧
          s2.onReceiveCommand = none) := by
  have hpr : resolvePrior s res = ((resolvePrior s res).1, (resolvePrior s res).2) :=
    rfl
  constructor
  · intro c rest h
    have hstep := handleConnEnd_decomp hpr conn (dispatchOrDefer_cons h conn)
    exact ⟨_, hstep, rfl, rfl, rfl⟩
  · intro h
    have hstep := handleConnEnd_decomp hpr conn (dispatchOrDefer_nil h conn)
    rw [List.append_nil] at hstep
    refine ⟨_, hstep, rfl, ?_⟩
    intro cmd pid
    have hsend := send_with_hook
      (s := { (resolvePrior s res).1 with onReceiveCommand := some conn })
      rfl h cmd pid
    exact ⟨_, hsend, rfl, rfl⟩

/-- C5 witness: on an idle fresh client a connection `end` registers the
deferred hook, and the next `sendCommand` dispatches immediately, writing the
stringified frame and half-closing. -/
theorem c5_witness :
    ∃ s', step clientInit (Event.connEnd 0 (Result.mk 0 "x" false)) =
        Except.ok (s',
          (resolvePrior clientInit (Result.mk 0 "x" false)).2) ∧
      s'.onReceiveCommand = some 0 ∧
      ∀ cmd pid, ∃ s2, step s' (Event.send cmd pid) =
          Except.ok (s2,
            [Effect.write 0 (stringifyCmd cmd), Effect.halfClose 0]) ∧
        s2.curCommand = some (Command.mk cmd pid) ∧
        s2.onReceiveCommand = none :=
  (c5_dispatch_or_defer clientInit 0 (Result.mk 0 "x" false)).2 rfl

/-- C1: the protocol is strictly non-pipelined.  In every reachable state:
a registered deferred-dispatch hook implies no command is in flight (so a
`sendCommand`-triggered dispatch never overlaps an outstanding exchange); a
single handler execution writes at most one command frame to the peer; if a
command is in flight, a write can only happen on the connection-`end` event
that ends its exchange — and that same event either settles the in-flight
command's callback or replaces it by its own `#more` continuation; and the
in-flight marker is only ever (re)populated by the dispatch step that also
writes the corresponding frame (popped from the head of the pending queue). -/
theorem c1_at_most_one_in_flight (s : ClientState) (hs : Reachable s) :
    (∀ conn, s.onReceiveCommand = some conn → s.curCommand = none) ∧
    (∀ e s' effs, step s e = Except.ok (s', effs) →
      (effs.filter isWrite).length ≤ 1) ∧
    (∀ e s' effs c, step s e = Except.ok (s', effs) →
      s.curCommand = some c → effs.filter isWrite ≠ [] →
      (∃ conn res, e = Event.connEnd conn res) ∧
      (effs.filter (settlesPid c.cb) ≠ [] ∨
        s'.curCommand = some (Command.mk MORE_COMMAND c.cb))) ∧
    (∀ e s' effs c, step s e = Except.ok (s', effs) →
      s'.curCommand = some c → s'.curCommand ≠ s.curCommand →
      ∃ conn, Effect.write conn (stringifyCmd c.cmd) ∈ effs) := by
  refine ⟨reachable_hookClear hs, ?_, ?_, ?_⟩
  · intro e s' effs h
    cases e with
    | accept conn =>
        rcases accept_cases h with ⟨_, _, rfl⟩ | ⟨_, _, rfl⟩ <;> simp
    | connEnd conn res =>
        rcases connEnd_cases h with ⟨hq, _, rfl⟩ | ⟨c, rest, hq, _, rfl⟩
        · rw [resolvePrior_no_writes s res]
          simp
        · rw [List.filter_append, resolvePrior_no_writes s res]
          simp [List.filter_cons]
    | connClose =>
        obtain ⟨_, rfl⟩ := connClose_cases h
        simp
    | send cmd pid =>
        rcases send_cases h with ⟨_, _, rfl⟩ | ⟨conn, c, rest, _, _, _, rfl⟩ <;>
          simp [List.filter_cons]
    | shutdownEv closeOk =>
        rw [(shutdown_cases h).2.2.2.2.2.2.2.1]
        simp
    | startEv r m =>
        rw [(startEv_cases h).1]
        simp
  · intro e s' effs c h hcur hw
    cases e with
    | accept conn =>
        rcases accept_cases h with ⟨_, _, rfl⟩ | ⟨_, _, rfl⟩ <;> simp at hw
    | connClose =>
        obtain ⟨_, rfl⟩ := connClose_cases h
        simp at hw
    | startEv r m =>
        rw [(startEv_cases h).1] at hw
        simp at hw
    | shutdownEv closeOk =>
        exact absurd (shutdown_cases h).2.2.2.2.2.2.2.1 hw
    | send cmd pid =>
        rcases send_cases h with ⟨_, _, rfl⟩ | ⟨conn, c1, rest, ho, _, _, _⟩
        · simp at hw
        · have hnone := reachable_hookClear hs conn ho
          rw [hcur] at hnone
          exact Option.noConfusion hnone
    | connEnd conn res =>
        refine ⟨⟨conn, res, rfl⟩, ?_⟩
        rcases resolvePrior_cases s res with ⟨hc0, hpr⟩ | ⟨c0, hc0, hm, hpr⟩ |
          ⟨c0, hc0, hm, hpr⟩
        · rw [hcur] at hc0
          exact Option.noConfusion hc0
        · right
          rw [hcur] at hc0
          injection hc0 with hc0
          subst hc0
          rcases connEnd_cases h with ⟨hq, rfl, _⟩ | ⟨c1, rest, hq, rfl, _⟩
          · simp [hpr] at hq
          · rw [hpr] at hq
            have hq2 : Command.mk MORE_COMMAND c.cb :: s.commandQueue =
                c1 :: rest := hq
            injection hq2 with hq2a hq2b
            show some c1 = _
            rw [← hq2a]
        · left
          rw [hcur] at hc0
          injection hc0 with hc0
          subst hc0
          rcases connEnd_cases h with ⟨hq, _, rfl⟩ | ⟨c1, rest, hq, _, rfl⟩ <;>
            rw [hpr] <;> simp [List.filter_cons]
  · intro e s' effs c h hc' hne
    cases e with
    | accept conn =>
        rcases accept_cases h with ⟨_, rfl, _⟩ | ⟨_, rfl, _⟩ <;> exact absurd rfl hne
    | connClose =>
        obtain ⟨rfl, _⟩ := connClose_cases h
        exact absurd rfl hne
    | startEv r m =>
        exact absurd (startEv_cases h).2.2.1 hne
    | shutdownEv closeOk =>
        rw [(shutdown_cases h).1] at hc'
        exact Option.noConfusion hc'
    | send cmd pid =>
        rcases send_cases h with ⟨_, rfl, _⟩ | ⟨conn, c1, rest, _, _, rfl, rfl⟩
        · exact absurd rfl hne
        · have hc1 : some c1 = some c := hc'
          injection hc1 with hc1
          subst hc1
          exact ⟨conn, by simp⟩
    | connEnd conn res =>
        rcases connEnd_cases h with ⟨hq, rfl, _⟩ | ⟨c1, rest, hq, rfl, rfl⟩
        · rcases resolvePrior_cases s res with ⟨hc0, hpr⟩ | ⟨c0, hc0, hm, hpr⟩ |
            ⟨c0, hc0, hm, hpr⟩
          · refine absurd ?_ hne
            show (resolvePrior s res).1.curCommand = s.curCommand
            rw [hpr]
          · simp [hpr] at hq
          · have : (resolvePrior s res).1.curCommand = none := by
              rw [hpr]
            have hc'' : (resolvePrior s res).1.curCommand = some c := hc'
            rw [this] at hc''
            exact Option.noConfusion hc''
        · have hc1 : some c1 = some c := hc'
          injection hc1 with hc1
          subst hc1
          exact ⟨conn, by simp⟩

/-- C1 witness: the invariant bundle instantiated at the initial state. -/
theorem c1_witness :
    (∀ conn, clientInit.onReceiveCommand = some conn →
      clientInit.curCommand = none) ∧
    (∀ e s' effs, step clientInit e = Except.ok (s', effs) →
      (effs.filter isWrite).length ≤ 1) ∧
    (∀ e s' effs c, step clientInit e = Except.ok (s', effs) →
      clientInit.curCommand = some c → effs.filter isWrite ≠ [] →
      (∃ conn res, e = Event.connEnd conn res) ∧
      (effs.filter (settlesPid c.cb) ≠ [] ∨
        s'.curCommand = some (Command.mk MORE_COMMAND c.cb))) ∧
    (∀ e s' effs c, step clientInit e = Except.ok (s', effs) →
      s'.curCommand = some c → s'.curCommand ≠ clientInit.curCommand →
      ∃ conn, Effect.write conn (stringifyCmd c.cmd) ∈ effs) :=
  c1_at_most_one_in_flight clientInit Reachable.init

/-- C4: over any successful execution from a fresh client, the promise
returned by `start` is resolved at most once, it is resolved with `true`, and
it is resolved exactly once as soon as some connection is accepted (the first
accepted connection); later accepted connections add no further resolution and
nothing ever rejects it (the handlers produce no such effect). -/
theorem c4_start_resolves_once (evs : List Event) (s' : ClientState)
    (effs : List Effect) (h : run clientInit evs = Except.ok (s', effs)) :
    (effs.filter isStartResolution).length ≤ 1 ∧
    ((∃ conn, Event.accept conn ∈ evs) →
      effs.filter isStartResolution = [Effect.resolveStart true]) := by
  have R := run_startRes evs h
  constructor
  · cases hb : s'.hasConnected
    · rw [R.2.2.1 hb]
      simp
    · rw [R.2.2.2 rfl hb]
      simp
  · intro hm
    exact R.2.2.2 rfl (run_accept_connected evs h hm)

/-- C4 witness: a trace with two accepted connections (and an exchange in
between) resolves `start`'s promise exactly once, with `true`. -/
theorem c4_witness :
    List.filter isStartResolution
        ([Effect.resolveStart true] ++
          ([Effect.resetBuffer] ++ ([] ++ []))) =
      [Effect.resolveStart true] :=
  (c4_start_resolves_once
      [Event.accept 0, Event.connEnd 0 (Result.mk 0 "r" false), Event.accept 1]
      { clientInit with
          onReceiveCommand := some 0
          hasConnected := true
          currentSocket := some 1 }
      ([Effect.resolveStart true] ++
        ([Effect.resetBuffer] ++ ([] ++ [])))
      rfl).2 ⟨0, by simp⟩

/-- C6: if stale-socket-file removal (`rimraf`) or parent-directory creation
(`mkdirp`) fails during `start`, the session never begins listening — but the
failure does not reject the future returned by `start`: the `async` executor's
rejection is discarded by the `Promise` constructor, so the future never
settles.  Evaluated at both failing inputs. -/
theorem c6_prep_failure_never_rejects :
    (startPrep false true).listens = false ∧
    (startPrep false true).futureRejected = false ∧
    (startPrep true false).listens = false ∧
    (startPrep true false).futureRejected = false ∧
    (startPrep true true).listens = true := by
  refine ⟨rfl, rfl, rfl, rfl, rfl⟩

/-- C7 counterexample: `shutdown` does not reset `hasConnected`, so after a
shutdown a fresh `start` plus its first accepted connection produce no new
resolution of `start`'s promise.  On the concrete trace
start → accept → shutdown → start → accept, the run emits exactly one
`start`-promise resolution — the one from before the shutdown; the second
`start`'s future is never fulfilled, although its socket got its first
accepted connection (the last event yields no effect at all). -/
theorem c7_counterexample :
    run clientInit
        [Event.startEv true true, Event.accept 0, Event.shutdownEv true,
          Event.startEv true true, Event.accept 1] =
      Except.ok
        ({ clientInit with
            socketServer := true
            hasConnected := true
            currentSocket := some 1 },
          [Effect.resolveStart true, Effect.sockEnd 0, Effect.sockDestroy 0,
            Effect.serverClose]) ∧
    (List.filter isStartResolution
        [Effect.resolveStart true, Effect.sockEnd 0, Effect.sockDestroy 0,
          Effect.serverClose]).length = 1 ∧
    step
        { clientInit with
            socketServer := true
            hasConnected := true
            currentSocket := none }
        (Event.accept 1) =
      Except.ok
        ({ clientInit with
            socketServer := true
            hasConnected := true
            currentSocket := some 1 }, []) :=
  ⟨rfl, rfl, rfl⟩

/-- C7 (amended): a second `shutdown` right after a successful one performs no
action and succeeds (every teardown reference is already null), and `start`
can be called again and listening restarts; but the fresh `start`'s future is
never fulfilled: `shutdown` leaves `hasConnected` untouched, so an accepted
connection after the restart emits no `start`-promise resolution. -/
theorem c7_amended (s s' : ClientState) (effs : List Effect) (closeOk : Bool)
    (h : step s (Event.shutdownEv closeOk) = Except.ok (s', effs)) :
    (∀ closeOk2, step s' (Event.shutdownEv closeOk2) = Except.ok (s', [])) ∧
    s'.hasConnected = s.hasConnected ∧
    (∀ r m conn, (startPrep r m).listens = true →
      ∃ s2, step s' (Event.startEv r m) = Except.ok (s2, []) ∧
        s2.socketServer = true ∧
        (s.hasConnected = true →
          step s2 (Event.accept conn) =
            Except.ok ({ s2 with currentSocket := some conn }, []))) := by
  have hsd := shutdown_cases h
  have he : ({ s' with curCommand := none, onReceiveCommand := none } :
      ClientState) = s' := by
    rw [← hsd.1, ← hsd.2.1]
  refine ⟨?_, hsd.2.2.2.2.2.1, ?_⟩
  · intro closeOk2
    show shutdown s' closeOk2 = _
    simp only [shutdown, he]
    rw [hsd.2.2.1]
    simp [hsd.2.2.2.1]
  · intro r m conn hlist
    have hstart : step s' (Event.startEv r m) =
        Except.ok ({ s' with socketServer := true }, []) := by
      show (if (startPrep r m).listens then
          Except.ok ({ s' with socketServer := true }, [])
        else Except.ok (s', [])) = _
      rw [if_pos hlist]
    refine ⟨_, hstart, rfl, fun hcon => ?_⟩
    have hb : ({ s' with socketServer := true } : ClientState).hasConnected =
        true := by
      show s'.hasConnected = true
      rw [hsd.2.2.2.2.2.1, hcon]
    show Except.ok (handleAccept _ conn) = _
    unfold handleAccept
    rw [hb, if_pos rfl]

/-- C7 witness: the amended behaviour evaluated on a concrete connected,
listening client that is shut down successfully. -/
theorem c7_witness :
    (∀ closeOk2,
      step { clientInit with hasConnected := true }
          (Event.shutdownEv closeOk2) =
        Except.ok ({ clientInit with hasConnected := true }, [])) ∧
    ({ clientInit with hasConnected := true } : ClientState).hasConnected =
      ({ clientInit with
          socketServer := true
          hasConnected := true
          currentSocket := some 0 } : ClientState).hasConnected ∧
    (∀ r m conn, (startPrep r m).listens = true →
      ∃ s2, step { clientInit with hasConnected := true }
          (Event.startEv r m) = Except.ok (s2, []) ∧
        s2.socketServer = true ∧
        (({ clientInit with
            socketServer := true
            hasConnected := true
            currentSocket := some 0 } : ClientState).hasConnected = true →
          step s2 (Event.accept conn) =
            Except.ok ({ s2 with currentSocket := some conn }, []))) :=
  c7_amended
    { clientInit with
        socketServer := true
        hasConnected := true
        currentSocket := some 0 }
    { clientInit with hasConnected := true }
    [Effect.sockEnd 0, Effect.sockDestroy 0, Effect.serverClose] true rfl

end UIAutoClient
